import Mathlib

/-!
# Verification of the 3dCityDashBoard geospatial enrichment & filter engine

A shallow embedding, in Lean 4, of the core of `backend/` in the
3dCityDashBoard repository:

* `backend/services/data_fetch.py` — `norm_building` (the Normalizer),
* `backend/app.py` — `enrich_with_zoning_and_assessment` (the Enricher) and
  `apply_filters` (the FilterEngine),
* `backend/services/llm.py` — `_fallback_rule_based` and `parse_filters`
  (the QueryParser).

Python's dynamically-typed values are embedded as the inductive type `Value`
(with rationals standing for Python floats), Python dicts as insertion-ordered
association lists, and Python exceptions as `Except`.  The external Shapely
geometry library is modelled by a small concrete geometry type (`GeomJson` /
`Shape`) faithful to the operations the code uses: `shape()` (which raises on
malformed input), `.centroid`, `.contains`, and `STRtree.query`.
-/

set_option maxRecDepth 4000

namespace CityDash

/-- Embedded GeoJSON geometry values, as the code receives them from the
data-source collaborator.  `rect` is a well-formed axis-aligned polygon (our
concrete geometry); `degenerate` is a geometry that `shape()` accepts but on
which later geometric operations raise; `malformed` is a geometry value on
which `shape()` itself raises. -/
inductive GeomJson where
  | rect (x0 y0 x1 y1 : ℚ)
  | degenerate
  | malformed
  deriving DecidableEq, Repr

/-- Model of a Shapely geometry object (result of a successful `shape()`). -/
inductive Shape where
  | rect (x0 y0 x1 y1 : ℚ)
  | degen
  deriving DecidableEq, Repr

/-- Embedded Python values: `None`, booleans, ints, floats (as rationals),
strings, lists, dicts (insertion-ordered association lists) and GeoJSON
geometry objects. -/
inductive Value where
  | vNone
  | vBool (b : Bool)
  | vInt (n : ℤ)
  | vFloat (q : ℚ)
  | vStr (s : String)
  | vList (l : List Value)
  | vDict (d : List (String × Value))
  | vGeom (g : GeomJson)

open Value

/-- A Python dict: insertion-ordered association list with unique keys. -/
abbrev Dict := List (String × Value)

/-- Python `d.get(k)`: the value at key `k`, or `None` when absent. -/
def dget : Dict → String → Value
  | [], _ => vNone
  | (k', v) :: d, k => if k' = k then v else dget d k

/-- Python `d[k]`: the value at key `k`, raising `KeyError` when absent. -/
def getItem : Dict → String → Except Unit Value
  | [], _ => .error ()
  | (k', v) :: d, k => if k' = k then .ok v else getItem d k

/-- Python `d[k] = v`: replace the value at `k` in place, or append. -/
def dset : Dict → String → Value → Dict
  | [], k, v => [(k, v)]
  | (k', v') :: d, k, v => if k' = k then (k, v) :: d else (k', v') :: dset d k v

/-- Python `l[i]` on a list: `IndexError` when out of range. -/
def listGet (l : List α) (i : ℕ) : Except Unit α :=
  match l[i]? with
  | some a => .ok a
  | none => .error ()

/-- Python truthiness of an embedded value. -/
def pyTruthy : Value → Bool
  | vNone => false
  | vBool b => b
  | vInt n => n ≠ 0
  | vFloat q => q ≠ 0
  | vStr s => s ≠ ""
  | vList l => ¬ l.isEmpty
  | vDict d => ¬ d.isEmpty
  | vGeom _ => true

/-- ASCII lower-casing of one character (model of Python `str.lower` on the
character sets the code uses). -/
def pyCharLower (c : Char) : Char :=
  if 'A' ≤ c ∧ c ≤ 'Z' then Char.ofNat (c.toNat + 32) else c

/-- Model of Python `str.lower()`. -/
def pyLower (s : String) : String := ⟨s.data.map pyCharLower⟩

/-- `listPrefix n h`: does list `n` occur as a prefix of `h`? -/
def listPrefix [DecidableEq α] : List α → List α → Bool
  | [], _ => true
  | _ :: _, [] => false
  | a :: as, b :: bs => a = b && listPrefix as bs

/-- `listInfixB n h`: does list `n` occur as a contiguous sublist of `h`? -/
def listInfixB [DecidableEq α] (n : List α) : List α → Bool
  | [] => listPrefix n []
  | c :: t => listPrefix n (c :: t) || listInfixB n (t)

/-- Python `needle in hay` for strings. -/
def pyIn (needle hay : String) : Bool := listInfixB needle.data hay.data

/-- Digit character. -/
def isDigitC (c : Char) : Bool := '0' ≤ c && c ≤ '9'

/-- Python regex `\w` word character (ASCII part). -/
def isWordC (c : Char) : Bool :=
  isDigitC c || ('a' ≤ c && c ≤ 'z') || ('A' ≤ c && c ≤ 'Z') || c = '_'

/-- Python regex `\s` whitespace character (ASCII part). -/
def isSpaceC (c : Char) : Bool :=
  c = ' ' || c = '\t' || c = '\n' || c = '\r' || c = '\x0b' || c = '\x0c'

/-- Uppercase ASCII letter (regex `[A-Z]`). -/
def isUpperC (c : Char) : Bool := 'A' ≤ c && c ≤ 'Z'

/-- Digits to a natural number (most significant first). -/
def digitsToNat (ds : List Char) : ℕ :=
  ds.foldl (fun acc c => acc * 10 + (c.toNat - '0'.toNat)) 0

/-- Model of Python `float(s)` on a string: optional sign, decimal digits with
optional fraction and optional exponent; `None` when the conversion raises. -/
def parseFloat (s : String) : Option ℚ :=
  let cs := (s.data.dropWhile isSpaceC).reverse.dropWhile isSpaceC |>.reverse
  let (sgn, cs) := match cs with
    | '-' :: t => ((-1 : ℚ), t)
    | '+' :: t => ((1 : ℚ), t)
    | t => ((1 : ℚ), t)
  let ip := cs.takeWhile isDigitC
  let cs1 := cs.drop ip.length
  let (fp, cs2) := match cs1 with
    | '.' :: t => (t.takeWhile isDigitC, (t.dropWhile isDigitC))
    | t => ([], t)
  if ip.isEmpty && fp.isEmpty then none
  else
    let mant : ℚ := (digitsToNat ip : ℚ) + (digitsToNat fp : ℚ) / ((10 : ℚ) ^ fp.length)
    match cs2 with
    | [] => some (sgn * mant)
    | e :: t =>
      if e = 'e' ∨ e = 'E' then
        let (esgn, t1) := match t with
          | '-' :: t' => ((-1 : ℤ), t')
          | '+' :: t' => ((1 : ℤ), t')
          | t' => ((1 : ℤ), t')
        let ed := t1.takeWhile isDigitC
        if ed.isEmpty ∨ ¬ (t1.drop ed.length).isEmpty then none
        else some (sgn * mant * (10 : ℚ) ^ (esgn * (digitsToNat ed : ℤ)))
      else none

/-- Model of Python `float(v)` on an embedded value: `None` when it raises. -/
def pyFloat : Value → Option ℚ
  | vBool b => some (if b then 1 else 0)
  | vInt n => some (n : ℚ)
  | vFloat q => some q
  | vStr s => parseFloat s
  | _ => none

/-- Truncation toward zero, as Python `int()` applied to a float. -/
def pytrunc (q : ℚ) : ℤ := if 0 ≤ q then ⌊q⌋ else -⌊-q⌋

/-- Python `round()` to an integer: round half to even (banker's rounding). -/
def roundHalfEven (q : ℚ) : ℤ :=
  let f := ⌊q⌋
  let r := q - (f : ℚ)
  if r < 1/2 then f
  else if 1/2 < r then f + 1
  else if 2 ∣ f then f else f + 1

/-- Python `round(x, 2)`: round to two decimal places. -/
def pyRound2 (q : ℚ) : ℚ := (roundHalfEven (q * 100) : ℚ) / 100

/-- Is this value Python `None`? -/
def Value.isNone : Value → Bool
  | vNone => true
  | _ => false

/-- Effectful map over a list in `Except`, stopping at the first failure
(the semantics of a Python `for` loop or comprehension whose body may
raise). -/
def mapE (f : α → Except ε β) : List α → Except ε (List β)
  | [] => .ok []
  | x :: xs => do
    let y ← f x
    let ys ← mapE f xs
    .ok (y :: ys)

/-- Left-pad a digit string with zeros to the given length. -/
def padZeros (s : String) (n : ℕ) : String :=
  ⟨List.replicate (n - s.length) '0' ++ s.data⟩

/-- Decimal rendering of a rational, modelling Python `str()` on a float:
`"12.0"`, `"-3.25"`, … (falls back to a fraction for non-decimal rationals,
which never arise from float-valued data). -/
def floatRepr (q : ℚ) : String :=
  let sign := if q < 0 then "-" else ""
  if q.den = 1 then sign ++ toString q.num.natAbs ++ ".0"
  else
    match (List.range 28).find? (fun k => (q * (10 : ℚ) ^ k).den = 1) with
    | some k =>
      let ds := padZeros (toString (q * (10 : ℚ) ^ k).num.natAbs) (k + 1)
      sign ++ ⟨ds.data.take (ds.length - k)⟩ ++ "." ++ ⟨ds.data.drop (ds.length - k)⟩
    | none => sign ++ toString q.num.natAbs ++ "/" ++ toString q.den

mutual

/-- Model of Python `repr()` on an embedded value. -/
def pyRepr : Value → String
  | vNone => "None"
  | vBool b => if b then "True" else "False"
  | vInt n => toString n
  | vFloat q => floatRepr q
  | vStr s => "'" ++ s ++ "'"
  | vList l => "[" ++ pyReprList l ++ "]"
  | vDict d => "\x7b" ++ pyReprDict d ++ "\x7d"
  | vGeom _ => "<geometry>"

/-- `repr` of the elements of a list, comma-separated. -/
def pyReprList : List Value → String
  | [] => ""
  | [v] => pyRepr v
  | v :: vs => pyRepr v ++ ", " ++ pyReprList vs

/-- `repr` of the entries of a dict, comma-separated. -/
def pyReprDict : List (String × Value) → String
  | [] => ""
  | [(k, v)] => "'" ++ k ++ "': " ++ pyRepr v
  | (k, v) :: kvs => "'" ++ k ++ "': " ++ pyRepr v ++ ", " ++ pyReprDict kvs

end

/-- Model of Python `str()` on an embedded value. -/
def pyStr : Value → String
  | vStr s => s
  | v => pyRepr v

/-! ## Normalizer — `norm_building` (backend/services/data_fetch.py) -/

/-- The candidate property keys probed for an explicit building height. -/
def heightCandidates : List String :=
  ["height_m", "HEIGHT_M", "height", "building_height", "bldg_height_m"]

/-- The candidate property keys probed for an explicit storey count. -/
def levelCandidates : List String :=
  ["levels", "LEVELS", "storeys", "stories", "num_storeys", "number_of_storeys"]

/-- The height-probing loop of `norm_building`: first candidate key whose
value is present and converts with `float()`; conversion failures are
swallowed and the scan continues. -/
def resolveHeight (props : Dict) : List String → Option ℚ
  | [] => none
  | k :: ks =>
    match dget props k with
    | vNone => resolveHeight props ks
    | v =>
      match pyFloat v with
      | some q => some q
      | none => resolveHeight props ks

/-- The level-probing loop of `norm_building`: first candidate key whose
value converts with `int(float())`. -/
def resolveLevels (props : Dict) : List String → Option ℤ
  | [] => none
  | k :: ks =>
    match dget props k with
    | vNone => resolveLevels props ks
    | v =>
      match pyFloat v with
      | some q => some (pytrunc q)
      | none => resolveLevels props ks

/-- Python `a or b or …`: the first truthy operand, else the last operand. -/
def orChain : List Value → Value
  | [] => vNone
  | [v] => v
  | v :: rest => if pyTruthy v then v else orChain rest

/-- `f.get("properties", \x7b\x7d) or \x7b\x7d`: the properties dict; an empty dict
when the key is absent or the value falsy; `.get` on a truthy non-dict value
would raise later, which we surface here. -/
def propsOf (f : Dict) : Except Unit Dict :=
  match dget f "properties" with
  | vDict d => .ok d
  | v => if pyTruthy v then .error () else .ok []

/-- `norm_building` from backend/services/data_fetch.py. -/
def normBuilding (f : Dict) : Except Unit Dict := do
  let props ← propsOf f
  let geom := dget f "geometry"
  let heightExplicit := resolveHeight props heightCandidates
  let levels? := resolveLevels props levelCandidates
  let heightFromLevels :=
    match heightExplicit, levels? with
    | none, some l => some ((l : ℚ) * 3)
    | h, _ => h
  let height_m : ℚ := heightFromLevels.getD 12
  let levels : ℤ :=
    match levels? with
    | some l => l
    | none => roundHalfEven (height_m / 3)
  .ok [("id", orChain [dget props "objectid", dget props "id", dget props "OBJECTID",
          dget props "bldg_id", dget props "BLDG_ID", dget props "mapid", dget props "MAPID"]),
       ("geometry", geom),
       ("height_m", vFloat height_m),
       ("levels", vInt levels),
       ("address", orChain [dget props "address", dget props "ADDRESS", dget props "civic_address"]),
       ("zoning", orChain [dget props "zoning", dget props "ZONING", dget props "land_use", dget props "LAND_USE"]),
       ("assessed_value", vNone),
       ("raw", vDict props)]

/-! ## FilterEngine — `apply_filters` (backend/app.py) -/

/-- A validated filter spec (models.FilterSpec): attribute, operator, value. -/
structure FSpec where
  attr : String
  op : String
  value : Value

/-- The attributes compared numerically in `apply_filters`. -/
def numericAttrs : List String := ["height_m", "assessed_value", "levels"]

/-- The inner predicate `ok(f, spec)` of `apply_filters`. -/
def specOk (f : Dict) (spec : FSpec) : Bool :=
  let op := spec.op
  let val := spec.value
  let fv := dget f spec.attr
  if numericAttrs.contains spec.attr then
    let fvq : Option (Option ℚ) :=
      if fv.isNone then some none else (pyFloat fv).map some
    match fvq, pyFloat val with
    | some fvo, some v =>
      match fvo with
      | none => false
      | some x =>
        (op == ">" && decide (x > v)) ||
        (op == "<" && decide (x < v)) ||
        (op == ">=" && decide (x ≥ v)) ||
        (op == "<=" && decide (x ≤ v)) ||
        (op == "=" && decide (|x - v| < 1/1000000))
    | _, _ => false
  else
    let sv := pyLower (pyStr (if pyTruthy fv then fv else vStr ""))
    let sval := pyLower (pyStr val)
    if op == "=" then sv == sval
    else if op == "contains" then pyIn sval sv
    else if op == "in" then
      match val with
      | vList l => (l.map (fun x => pyLower (pyStr x))).contains sv
      | _ => false
    else false

/-- `apply_filters` from backend/app.py: keep the features satisfying every
spec. -/
def applyFilters (features : List Dict) (filters : List FSpec) : List Dict :=
  features.filter (fun f => filters.all (fun s => specOk f s))

/-! ## SpatialIndex & Enricher — `enrich_with_zoning_and_assessment`
(backend/app.py)

The Shapely collaborator is modelled concretely: `shape()` raises on a
malformed geometry value, centroid and containment raise on a degenerate
shape, and `STRtree.query(point, predicate="contains")` returns, per the
spec's description of the spatial index, the indices of the tree geometries
containing the point in input order (raising if a containment test raises). -/

/-- A point (the representative centroid). -/
abbrev Point := ℚ × ℚ

/-- Model of `shapely.geometry.shape` on a geometry value: raises on
malformed input. -/
def shapeG : GeomJson → Except Unit Shape
  | .rect x0 y0 x1 y1 => .ok (.rect x0 y0 x1 y1)
  | .degenerate => .ok .degen
  | .malformed => .error ()

/-- `shape()` applied to an embedded value (raises on non-geometry input). -/
def shapeOf : Value → Except Unit Shape
  | vGeom g => shapeG g
  | _ => .error ()

/-- Model of the Shapely `.centroid` of a shape. -/
def centroidOf : Shape → Except Unit Point
  | .rect x0 y0 x1 y1 => .ok ((x0 + x1) / 2, (y0 + y1) / 2)
  | .degen => .error ()

/-- Model of Shapely `polygon.contains(point)` (interior containment);
raises on a degenerate shape. -/
def containsPt : Shape → Point → Except Unit Bool
  | .rect x0 y0 x1 y1, (px, py) =>
    .ok (decide (x0 < px) && decide (px < x1) && decide (y0 < py) && decide (py < y1))
  | .degen, _ => .error ()

/-- Auxiliary index-tracking scan for the tree query. -/
def strtreeQueryAux (c : Point) : List Shape → ℕ → Except Unit (List ℕ)
  | [], _ => .ok []
  | g :: rest, i => do
    let b ← containsPt g c
    let tail ← strtreeQueryAux c rest (i + 1)
    .ok (if b then i :: tail else tail)

/-- Model of `STRtree(geoms).query(c, predicate="contains")`: the indices of
the geometries containing `c`, in input order. -/
def strtreeQuery (geoms : List Shape) (c : Point) : Except Unit (List ℕ) :=
  strtreeQueryAux c geoms 0

/-- `[shape(f["geometry"]) for f in recs if f.get("geometry")]`. -/
def buildGeoms (recs : List Dict) : Except Unit (List Shape) :=
  mapE (fun f => do shapeOf (← getItem f "geometry"))
    (recs.filter (fun f => pyTruthy (dget f "geometry")))

/-- The in-`try` linear fallback scan (runs when the tree query returns no
index): the first containment failure propagates. -/
def scanLoop (key : String) (b : Dict) (recs : List Dict) (c : Point) :
    List Shape → ℕ → Except Unit Dict
  | [], _ => .ok b
  | g :: rest, i => do
    let hit ← containsPt g c
    if hit then do
      let r ← listGet recs i
      let z ← getItem r key
      .ok (dset b key z)
    else scanLoop key b recs c rest (i + 1)

/-- The "ultra-safe" except-branch scan: every per-polygon failure is
swallowed and the scan continues. -/
def ultraSafeLoop (key : String) (b : Dict) (recs : List Dict) (c : Point) :
    List Shape → ℕ → Dict
  | [], _ => b
  | g :: rest, i =>
    match (do
      let hit ← containsPt g c
      if hit then do
        let r ← listGet recs i
        let z ← getItem r key
        .ok (some z)
      else .ok none : Except Unit (Option Value)) with
    | .ok (some z) => dset b key z
    | _ => ultraSafeLoop key b recs c rest (i + 1)

/-- The body of one overlay `try:` block: tree query, first index wins
(note: the index is into the *filtered* geometry list but is used to index
the *unfiltered* record list, exactly as in the code), else linear scan. -/
def overlayTry (key : String) (b : Dict) (geoms : List Shape) (recs : List Dict)
    (c : Point) : Except Unit Dict := do
  let idxs ← strtreeQuery geoms c
  match idxs with
  | idx :: _ => do
    let r ← listGet recs idx
    let z ← getItem r key
    .ok (dset b key z)
  | [] => scanLoop key b recs c geoms 0

/-- One overlay block (`try`/`except` with the ultra-safe fallback): total. -/
def overlayStep (key : String) (b : Dict) (geoms : List Shape) (recs : List Dict)
    (c : Point) : Dict :=
  match overlayTry key b geoms recs c with
  | .ok b' => b'
  | .error _ => ultraSafeLoop key b recs c geoms 0

/-- The per-building body of the enrichment loop: set the defaults, skip a
building with falsy geometry, otherwise compute the centroid (which may
raise) and run the two overlay blocks. -/
def enrichBuilding (landGeoms assessGeoms : List Shape)
    (landuse assessments : List Dict) (b : Dict) : Except Unit Dict := do
  let b := dset (dset b "zoning" (vStr "Unknown")) "assessed_value" vNone
  if ¬ pyTruthy (dget b "geometry") then .ok b
  else do
    let gv ← getItem b "geometry"
    let s ← shapeOf gv
    let c ← centroidOf s
    let b := if landGeoms.isEmpty then b else overlayStep "zoning" b landGeoms landuse c
    let b := if assessGeoms.isEmpty then b
             else overlayStep "assessed_value" b assessGeoms assessments c
    .ok b

/-- `enrich_with_zoning_and_assessment` from backend/app.py. -/
def enrich (buildings landuse assessments : List Dict) : Except Unit (List Dict) := do
  let landGeoms ← buildGeoms landuse
  let assessGeoms ← buildGeoms assessments
  mapE (enrichBuilding landGeoms assessGeoms landuse assessments) buildings

/-! ## QueryParser — `_fallback_rule_based` (backend/services/llm.py)

Each of the five regular expressions of the extractor is embedded as a
dedicated scanner with Python `re.search` semantics (leftmost match,
ordered alternation, greedy quantifiers with the backtracking those
patterns can actually exercise). -/

/-- Scan every start position left to right, returning the first match. -/
def scanFor (f : List Char → Option α) : List Char → Option α
  | [] => f []
  | c :: t =>
    match f (c :: t) with
    | some r => some r
    | none => scanFor f t

/-- Word-boundary test after a word character: the next character (if any)
must not be a word character. -/
def boundaryAfterWord : List Char → Bool
  | [] => true
  | c :: _ => ¬ isWordC c

/-- Match a number-with-unit pattern at one position: digits, an optional
fractional part when `allowFrac`, `\s*`, one of `units` (tried in order),
then `\b`.  Returns the numeric group. -/
def numUnitAt (allowFrac : Bool) (units : List (List Char)) (cs : List Char) :
    Option (List Char) :=
  let ds := cs.takeWhile isDigitC
  if ds.isEmpty then none
  else
    let rest1 := cs.drop ds.length
    let tryUnits : List Char → Option Unit := fun r =>
      let ws := r.dropWhile isSpaceC
      if (units.filter (fun u => listPrefix u ws && boundaryAfterWord (ws.drop u.length))).isEmpty
      then none else some ()
    let withFrac : Option (List Char) :=
      if allowFrac then
        match rest1 with
        | '.' :: r =>
          let fs := r.takeWhile isDigitC
          if fs.isEmpty then none
          else
            match tryUnits (r.drop fs.length) with
            | some _ => some (ds ++ '.' :: fs)
            | none => none
        | _ => none
      else none
    match withFrac with
    | some g => some g
    | none =>
      match tryUnits rest1 with
      | some _ => some ds
      | none => none

/-- `re.search(r"(\d+(?:\.\d+)?)\s*(?:ft|feet)\b", ql)` — the group. -/
def feetSearch (s : String) : Option String :=
  (scanFor (numUnitAt true [['f', 't'], ['f', 'e', 'e', 't']]) s.data).map (⟨·⟩)

/-- `re.search(r"(\d+(?:\.\d+)?)\s*(?:m|meter|meters)\b", ql)` — the group. -/
def metersSearch (s : String) : Option String :=
  (scanFor (numUnitAt true [['m'], ['m','e','t','e','r'], ['m','e','t','e','r','s']]) s.data).map (⟨·⟩)

/-- `re.search(r"(\d+)\s*(?:levels?|storeys?|stories?)\b", ql)` — the group. -/
def levelsSearch (s : String) : Option String :=
  (scanFor (numUnitAt false
    [['l','e','v','e','l','s'], ['l','e','v','e','l'],
     ['s','t','o','r','e','y','s'], ['s','t','o','r','e','y'],
     ['s','t','o','r','i','e','s'], ['s','t','o','r','i','e']]) s.data).map (⟨·⟩)

/-- Match `([A-Z]{1,3}-[A-Z]{1,3})\b` at one position (the leading `\b` is
checked by the caller via the previous character). -/
def zoneAt (cs : List Char) : Option (List Char) :=
  let run1 := cs.takeWhile isUpperC
  if run1.isEmpty || run1.length > 3 then none
  else
    match cs.drop run1.length with
    | '-' :: r =>
      let run2 := r.takeWhile isUpperC
      if run2.isEmpty || run2.length > 3 then none
      else if boundaryAfterWord (r.drop run2.length) then
        some (run1 ++ '-' :: run2)
      else none
    | _ => none

/-- Scan for the zoning-code pattern, tracking the previous character for
the leading `\b`. -/
def zoneScan (prev : Option Char) : List Char → Option (List Char)
  | [] => none
  | c :: t =>
    if (match prev with | none => true | some p => ¬ isWordC p) then
      match zoneAt (c :: t) with
      | some r => some r
      | none => zoneScan (some c) t
    else zoneScan (some c) t

/-- `re.search(r"\b([A-Z]{1,3}-[A-Z]{1,3})\b", q)` — the group. -/
def zoneSearch (s : String) : Option String := (zoneScan none s.data).map (⟨·⟩)

/-- Digit or comma (the money pattern's character class `[\d,]`). -/
def isMoneyC (c : Char) : Bool := isDigitC c || c = ','

/-- `\b` between a last consumed character and the following character. -/
def boundaryBetween (last : Char) (next : Option Char) : Bool :=
  isWordC last != (match next with | some c => isWordC c | none => false)

/-- Backtracking over how much of the `[\d,]+` run the money pattern keeps:
try the full run (with its optional greedy fraction first), then shorter and
shorter prefixes, accepting the first length followed by a word boundary. -/
def moneyLens (run afterRun : List Char) : ℕ → Option (List Char)
  | 0 => none
  | len + 1 =>
    let withFrac : Option (List Char) :=
      if len + 1 = run.length then
        match afterRun with
        | '.' :: r =>
          let fs := r.takeWhile isDigitC
          if fs.isEmpty then none
          else if boundaryBetween '0' (r.drop fs.length).head? then
            some (run ++ '.' :: fs)
          else none
        | _ => none
      else none
    match withFrac with
    | some g => some g
    | none =>
      let last := run.getD len ' '
      let next : Option Char :=
        if len + 1 < run.length then some (run.getD (len + 1) ' ') else afterRun.head?
      if boundaryBetween last next then some (run.take (len + 1))
      else moneyLens run afterRun len

/-- Match `\$?\s*([\d,]+(?:\.\d+)?)\b` at one position — the group. -/
def moneyAt (cs : List Char) : Option (List Char) :=
  let afterD := match cs with
    | '$' :: t => t
    | t => t
  let ws := afterD.dropWhile isSpaceC
  let run := ws.takeWhile isMoneyC
  if run.isEmpty then none
  else moneyLens run (ws.drop run.length) run.length

/-- `re.search(r"\$?\s*([\d,]+(?:\.\d+)?)\b", ql)` — the group. -/
def moneySearch (s : String) : Option String := (scanFor moneyAt s.data).map (⟨·⟩)

/-- `g.replace(",", "")`. -/
def removeCommas (s : String) : String := ⟨s.data.filter (· ≠ ',')⟩

/-- `any(w in ql for w in ws)`. -/
def containsAnyIn (ws : List String) (ql : String) : Bool := ws.any (fun w => pyIn w ql)

/-- The money-hint keyword list of `_fallback_rule_based`. -/
def moneyHintWords : List String :=
  ["dollar", "dollars", "value", "assess", "assessed", "assessment",
   "valuation", "price", "worth", "cost"]

/-- The money hint: a currency symbol in the raw query or a hint keyword in
the lowercased query. -/
def moneyHint (q ql : String) : Bool := pyIn "$" q || containsAnyIn moneyHintWords ql

/-- The operator-heuristics cascade of `_fallback_rule_based`: sequential
reassignments, so the last matching rule wins. -/
def inferOp (ql : String) : String :=
  let op := ">"
  let op := if containsAnyIn ["less than", "under", "below", "<"] ql then "<" else op
  let op := if pyIn "at least" ql || pyIn ">=" ql then ">=" else op
  let op := if pyIn "at most" ql || pyIn "<=" ql then "<=" else op
  if pyIn " equal" ql || pyIn "exact" ql || pyIn " = " ql then "=" else op

/-- One emitted filter dict `\x7b"attribute": a, "operator": o, "value": v\x7d`. -/
def mkFilter (a o : String) (v : Value) : Value :=
  vDict [("attribute", vStr a), ("operator", vStr o), ("value", v)]

/-- `_fallback_rule_based` from backend/services/llm.py. -/
def fallbackRuleBased (q : String) : List Value :=
  let ql := pyLower q
  let hint := moneyHint q ql
  let mFeet := feetSearch ql
  let mMeters := metersSearch ql
  let mLevels := levelsSearch ql
  let mZone := zoneSearch q
  let mMoney := if hint then moneySearch ql else none
  let op := inferOp ql
  let heightF : List Value :=
    match mFeet with
    | some g =>
      [mkFilter "height_m" op (vFloat (pyRound2 (((parseFloat g).getD 0) * (3048 / 10000))))]
    | none =>
      match mMeters with
      | some g => [mkFilter "height_m" op (vFloat ((parseFloat g).getD 0))]
      | none => []
  let levelsF : List Value :=
    match mLevels with
    | some g => [mkFilter "levels" op (vFloat ((parseFloat g).getD 0))]
    | none => []
  let zoneF : List Value :=
    match mZone with
    | some z => [mkFilter "zoning" "=" (vStr z)]
    | none => []
  let moneyF : List Value :=
    match mMoney with
    | some g =>
      match parseFloat (removeCommas g) with
      | some v => [mkFilter "assessed_value" op (vFloat v)]
      | none => []
    | none => []
  let useF : List Value :=
    (if pyIn "commercial" ql then [mkFilter "use" "=" (vStr "commercial")] else []) ++
    (if pyIn "residential" ql then [mkFilter "use" "=" (vStr "residential")] else [])
  heightF ++ levelsF ++ zoneF ++ moneyF ++ useF

/-! ## QueryParser — `parse_filters` (backend/services/llm.py)

`json.loads` is modelled by a small recursive-descent JSON parser producing
embedded Python values; the extraction regex `\x7b.*\x7d` (with `re.S`) takes the
substring from the first opening brace to the last closing brace after it.
The HF inference client is an external collaborator, modelled as an oracle
`call : model → prompt → response-or-exception-name`. -/

/-- Hexadecimal digit value. -/
def hexVal (c : Char) : Option ℕ :=
  if isDigitC c then some (c.toNat - '0'.toNat)
  else if 'a' ≤ c ∧ c ≤ 'f' then some (c.toNat - 'a'.toNat + 10)
  else if 'A' ≤ c ∧ c ≤ 'F' then some (c.toNat - 'A'.toNat + 10)
  else none

/-- Skip JSON whitespace. -/
def jsonSkipWs : List Char → List Char
  | c :: t => if c = ' ' ∨ c = '\t' ∨ c = '\n' ∨ c = '\r' then jsonSkipWs t else c :: t
  | [] => []

/-- Parse the body of a JSON string (after the opening quote). -/
def parseJString : ℕ → List Char → List Char → Option (String × List Char)
  | 0, _, _ => none
  | fuel + 1, acc, cs =>
    match cs with
    | [] => none
    | '"' :: t => some (⟨acc.reverse⟩, t)
    | '\\' :: e :: t =>
      if e = '"' then parseJString fuel ('"' :: acc) t
      else if e = '\\' then parseJString fuel ('\\' :: acc) t
      else if e = '/' then parseJString fuel ('/' :: acc) t
      else if e = 'b' then parseJString fuel ('\x08' :: acc) t
      else if e = 'f' then parseJString fuel ('\x0c' :: acc) t
      else if e = 'n' then parseJString fuel ('\n' :: acc) t
      else if e = 'r' then parseJString fuel ('\r' :: acc) t
      else if e = 't' then parseJString fuel ('\t' :: acc) t
      else if e = 'u' then
        match t with
        | h1 :: h2 :: h3 :: h4 :: t' =>
          match hexVal h1, hexVal h2, hexVal h3, hexVal h4 with
          | some a, some b, some c, some d =>
            parseJString fuel (Char.ofNat (((a * 16 + b) * 16 + c) * 16 + d) :: acc) t'
          | _, _, _, _ => none
        | _ => none
      else none
    | c :: t => if c.toNat < 32 then none else parseJString fuel (c :: acc) t

/-- Parse a JSON number (ints stay ints, as in Python's `json` module). -/
def parseJNumber (cs : List Char) : Option (Value × List Char) :=
  let (neg, cs1) := match cs with
    | '-' :: t => (true, t)
    | t => (false, t)
  let ipOpt : Option (List Char × List Char) := match cs1 with
    | '0' :: t => some (['0'], t)
    | c :: t => if isDigitC c && c ≠ '0' then some (c :: t.takeWhile isDigitC, t.dropWhile isDigitC) else none
    | [] => none
  match ipOpt with
  | none => none
  | some (ip, cs2) =>
    let fracOpt : Option (List Char × List Char) := match cs2 with
      | '.' :: t =>
        let fp := t.takeWhile isDigitC
        if fp.isEmpty then none else some (fp, t.drop fp.length)
      | _ => none
    let cs3 := match fracOpt with
      | some (_, r) => r
      | none => cs2
    let expOpt : Option (ℤ × List Char) := match cs3 with
      | e :: t =>
        if e = 'e' ∨ e = 'E' then
          let (esgn, t1) : ℤ × List Char := match t with
            | '-' :: t' => (-1, t')
            | '+' :: t' => (1, t')
            | t' => (1, t')
          let ed := t1.takeWhile isDigitC
          if ed.isEmpty then none else some (esgn * (digitsToNat ed : ℤ), t1.drop ed.length)
        else none
      | [] => none
    let rest := match expOpt with
      | some (_, r) => r
      | none => cs3
    -- `.`/`e` absent and well-formed ⇒ a Python int; otherwise a float
    match fracOpt, expOpt with
    | none, none =>
      some (vInt ((if neg then -1 else 1) * (digitsToNat ip : ℤ)), cs2)
    | _, _ =>
      let fp := (fracOpt.map Prod.fst).getD []
      let mant : ℚ := (digitsToNat ip : ℚ) + (digitsToNat fp : ℚ) / ((10 : ℚ) ^ fp.length)
      let ex : ℤ := (expOpt.map Prod.fst).getD 0
      some (vFloat ((if neg then -1 else 1) * mant * (10 : ℚ) ^ ex), rest)

mutual

/-- Parse one JSON value. -/
def parseJValue : ℕ → List Char → Option (Value × List Char)
  | 0, _ => none
  | fuel + 1, cs =>
    match jsonSkipWs cs with
    | 'n' :: 'u' :: 'l' :: 'l' :: t => some (vNone, t)
    | 't' :: 'r' :: 'u' :: 'e' :: t => some (vBool true, t)
    | 'f' :: 'a' :: 'l' :: 's' :: 'e' :: t => some (vBool false, t)
    | '"' :: t =>
      match parseJString (t.length + 1) [] t with
      | some (s, rest) => some (vStr s, rest)
      | none => none
    | '[' :: t =>
      match jsonSkipWs t with
      | ']' :: t' => some (vList [], t')
      | _ =>
        match parseJItems fuel t with
        | some (items, rest) => some (vList items, rest)
        | none => none
    | '{' :: t =>
      match jsonSkipWs t with
      | '}' :: t' => some (vDict [], t')
      | _ =>
        match parseJMembers fuel t [] with
        | some (d, rest) => some (vDict d, rest)
        | none => none
    | t => parseJNumber t

/-- Parse the comma-separated items of a JSON array, up to `]`. -/
def parseJItems : ℕ → List Char → Option (List Value × List Char)
  | 0, _ => none
  | fuel + 1, cs =>
    match parseJValue fuel cs with
    | some (v, rest) =>
      match jsonSkipWs rest with
      | ',' :: t =>
        match parseJItems fuel t with
        | some (vs, rest') => some (v :: vs, rest')
        | none => none
      | ']' :: t => some ([v], t)
      | _ => none
    | none => none

/-- Parse the members of a JSON object, up to `\x7d` (duplicate keys: last
wins, as in Python). -/
def parseJMembers : ℕ → List Char → Dict → Option (Dict × List Char)
  | 0, _, _ => none
  | fuel + 1, cs, acc =>
    match jsonSkipWs cs with
    | '"' :: t =>
      match parseJString (t.length + 1) [] t with
      | some (k, rest) =>
        match jsonSkipWs rest with
        | ':' :: t' =>
          match parseJValue fuel t' with
          | some (v, rest') =>
            let acc' := dset acc k v
            match jsonSkipWs rest' with
            | ',' :: t'' => parseJMembers fuel t'' acc'
            | '}' :: t'' => some (acc', t'')
            | _ => none
          | none => none
        | _ => none
      | none => none
    | _ => none

end

/-- Model of Python `json.loads`: parse a complete JSON document (trailing
whitespace allowed, trailing data an error). -/
def jsonLoads (s : String) : Option Value :=
  match parseJValue (s.length + 1) s.data with
  | some (v, rest) => if (jsonSkipWs rest).isEmpty then some v else none
  | none => none

/-- `re.search(r"\x7b.*\x7d", resp, flags=re.S)`: the substring from the first
opening brace to the last closing brace strictly after it. -/
def extractBrace (s : String) : Option String :=
  let cs := s.data
  match cs.findIdx? (· == '{') with
  | none => none
  | some i =>
    match cs.reverse.findIdx? (· == '}') with
    | none => none
    | some jr =>
      let j := cs.length - 1 - jr
      if i < j then some ⟨(cs.take (j + 1)).drop i⟩ else none

/-- The attribute names whose filter values `parse_filters` coerces to
float after a successful model response. -/
def numericAttrNames : List String := ["height_m", "levels", "assessed_value"]

/-- The per-filter numeric normalization in `parse_filters`' success path:
`f["value"] = float(f["value"])`, with any exception swallowed; a non-dict
element raises `AttributeError` at `f.get`. -/
def normalizeItem (item : Value) : Except String Value :=
  match item with
  | vDict d =>
    let isNum := match dget d "attribute" with
      | vStr a => numericAttrNames.contains a
      | _ => false
    if isNum then
      match getItem d "value" with
      | .ok v =>
        match pyFloat v with
        | some q => .ok (vDict (dset d "value" (vFloat q)))
        | none => .ok (vDict d)
      | .error _ => .ok (vDict d)
    else .ok (vDict d)
  | _ => .error "AttributeError"

/-- Processing of one model response: extract the first brace-delimited
substring, `json.loads` it, take `obj.get("filters") or []`, and normalize
numeric filter values; failures carry the Python error kind recorded in
`last_err`. -/
def processResponse (resp : String) : Except String (List Value) := do
  let js ← match extractBrace resp with
    | some s => Except.ok s
    | none => Except.error "no_json"
  let obj ← match jsonLoads js with
    | some v => Except.ok v
    | none => Except.error "JSONDecodeError"
  let fsv ← match obj with
    | vDict d => Except.ok (dget d "filters")
    | _ => Except.error "AttributeError"
  let fs := if pyTruthy fsv then fsv else vList []
  match fs with
  | vList items => mapE normalizeItem items
  | vStr _ => Except.error "AttributeError"
  | vDict _ => Except.error "AttributeError"
  | _ => Except.error "TypeError"

/-- The `SYSTEM_PROMPT` template of backend/services/llm.py. -/
def systemPrompt : String :=
  "You extract structured filters from a natural-language query about buildings.\nAlways return ONLY a compact JSON object with a 'filters' array, no prose.\n\nAllowed attributes: height_m, levels, zoning, assessed_value, address, use\nAllowed operators: >, <, >=, <=, =, contains, in\n\nExamples:\nInput: highlight buildings over 100 feet\nOutput: \x7b\"filters\":[\x7b\"attribute\":\"height_m\",\"operator\":\">\",\"value\":30.48\x7d]\x7d\n\nInput: show buildings less than $500,000 in value\nOutput: \x7b\"filters\":[\x7b\"attribute\":\"assessed_value\",\"operator\":\"<\",\"value\":500000\x7d]\x7d\n\nInput: show buildings in RC-G zoning\nOutput: \x7b\"filters\":[\x7b\"attribute\":\"zoning\",\"operator\":\"=\",\"value\":\"RC-G\"\x7d]\x7d\n"

/-- The prompt sent to each candidate model. -/
def promptFor (query : String) : String :=
  systemPrompt ++ "\nInput: " ++ query ++ "\nOutput:"

/-- The default primary model name. -/
def defaultModel : String := "Qwen/Qwen2.5-7B-Instruct"

/-- `os.environ.get("HF_API_KEY", "") or ""`. -/
def tokenOf (env : String → Option String) : String := (env "HF_API_KEY").getD ""

/-- The ordered candidate list: configured primary model first, then the
two fixed secondary candidates. -/
def candidatesOf (env : String → Option String) : List String :=
  [(env "HF_MODEL").getD defaultModel,
   "HuggingFaceH4/zephyr-7b-beta",
   "mistralai/Mistral-7B-Instruct-v0.3"]

/-- One candidate attempt: call the model with the fixed prompt (the oracle's
error is the exception's type name) and process its response. -/
def attemptModel (call : String → String → Except String String)
    (query model : String) : Except String (List Value) := do
  let resp ← call model (promptFor query)
  processResponse resp

/-- The candidate loop of `parse_filters`: first success returns with note
`"hf:<model>"`; when all candidates fail, fall back with
`"fallback_error:<last_err>"`. -/
def tryCandidates (call : String → String → Except String String) (query : String) :
    List String → Option String → List Value × String
  | [], lastErr =>
    (fallbackRuleBased query,
     "fallback_error:" ++ (match lastErr with | some e => e | none => "None"))
  | m :: rest, lastErr =>
    match attemptModel call query m with
    | .ok fs => (fs, "hf:" ++ m)
    | .error e =>
      let _ := lastErr
      tryCandidates call query rest (some e)

/-- `parse_filters` from backend/services/llm.py, over the environment, the
availability of the `huggingface_hub` package, and the inference oracle. -/
def parseFilters (env : String → Option String) (hubAvailable : Bool)
    (call : String → String → Except String String) (query : String) :
    List Value × String :=
  if tokenOf env = "" then (fallbackRuleBased query, "fallback")
  else if ¬ hubAvailable then
    (fallbackRuleBased query, "fallback_error:missing_huggingface_hub")
  else tryCandidates call query (candidatesOf env) none

/-! ## Helper lemmas -/

theorem dget_dset_self (d : Dict) (k : String) (v : Value) :
    dget (dset d k v) k = v := by
  induction d with
  | nil => simp [dget, dset]
  | cons p d ih =>
    obtain ⟨k', v'⟩ := p
    by_cases h : k' = k
    · subst h; simp [dget, dset]
    · simp [dget, dset, h, ih]

theorem dget_dset_ne (d : Dict) (k k' : String) (v : Value) (h : k ≠ k') :
    dget (dset d k v) k' = dget d k' := by
  induction d with
  | nil => simp [dget, dset, h]
  | cons p d ih =>
    obtain ⟨k₀, v₀⟩ := p
    by_cases h0 : k₀ = k
    · subst h0; simp [dget, dset, h]
    · by_cases h1 : k₀ = k'
      · subst h1; simp [dget, dset, h0]
      · simp [dget, dset, h0, h1, ih]

theorem getItem_of_ne_none (d : Dict) (k : String) (h : dget d k ≠ vNone) :
    getItem d k = .ok (dget d k) := by
  induction d with
  | nil => simp [dget] at h
  | cons p d ih =>
    obtain ⟨k', v⟩ := p
    by_cases h0 : k' = k
    · subst h0; simp [dget, getItem]
    · simp [dget, h0] at h
      simp [dget, getItem, h0, ih h]

theorem mapE_ok_mem {f : α → Except ε β} {l : List α} {res : List β}
    (h : mapE f l = .ok res) : ∀ y ∈ res, ∃ x ∈ l, f x = .ok y := by
  induction l generalizing res with
  | nil =>
    simp [mapE] at h
    subst h; simp
  | cons x xs ih =>
    simp only [mapE, bind, Except.bind] at h
    cases hx : f x with
    | error e => rw [hx] at h; exact absurd h (by simp)
    | ok y =>
      rw [hx] at h
      cases hxs : mapE f xs with
      | error e => rw [hxs] at h; exact absurd h (by simp)
      | ok ys =>
        rw [hxs] at h
        simp at h
        subst h
        intro z hz
        rcases List.mem_cons.mp hz with rfl | hz'
        · exact ⟨x, by simp, hx⟩
        · obtain ⟨x', hx', hfx'⟩ := ih hxs z hz'
          exact ⟨x', by simp [hx'], hfx'⟩

theorem mapE_ok_of_all {f : α → Except ε β} {l : List α}
    (h : ∀ x ∈ l, ∃ y, f x = .ok y) : ∃ res, mapE f l = .ok res := by
  induction l with
  | nil => exact ⟨[], rfl⟩
  | cons x xs ih =>
    obtain ⟨y, hy⟩ := h x (by simp)
    obtain ⟨ys, hys⟩ := ih (fun x' hx' => h x' (by simp [hx']))
    exact ⟨y :: ys, by simp [mapE, bind, Except.bind, hy, hys]⟩

/-- The in-`try` linear scan either returns the building unchanged, sets
exactly the overlay key, or raises. -/
theorem scanLoop_shape (key : String) (b : Dict) (recs : List Dict) (c : Point)
    (geoms : List Shape) (i : ℕ) :
    scanLoop key b recs c geoms i = .error () ∨
    scanLoop key b recs c geoms i = .ok b ∨
    ∃ z, scanLoop key b recs c geoms i = .ok (dset b key z) := by
  induction geoms generalizing i with
  | nil => right; left; rfl
  | cons g rest ih =>
    simp only [scanLoop, bind, Except.bind]
    cases hc : containsPt g c with
    | error e => left; rfl
    | ok hit =>
      cases hit
      · simpa using ih (i + 1)
      · simp only [if_true]
        cases hr : listGet recs i with
        | error e => left; rfl
        | ok r =>
          cases hz : getItem r key with
          | error e => left; simp [hz]
          | ok z => right; right; exact ⟨z, by simp [hz]⟩

/-- The ultra-safe scan either returns the building unchanged or sets
exactly the overlay key. -/
theorem ultraSafeLoop_shape (key : String) (b : Dict) (recs : List Dict)
    (c : Point) (geoms : List Shape) (i : ℕ) :
    ultraSafeLoop key b recs c geoms i = b ∨
    ∃ z, ultraSafeLoop key b recs c geoms i = dset b key z := by
  induction geoms generalizing i with
  | nil => left; rfl
  | cons g rest ih =>
    simp only [ultraSafeLoop]
    rcases hm : (do
        let hit ← containsPt g c
        if hit then do
          let r ← listGet recs i
          let z ← getItem r key
          Except.ok (some z)
        else Except.ok none : Except Unit (Option Value)) with e | o
    · simpa using ih (i + 1)
    · cases o with
      | none => simpa using ih (i + 1)
      | some z => right; exact ⟨z, rfl⟩

/-- One overlay block (total) either leaves the building unchanged or sets
exactly the overlay key. -/
theorem overlayStep_shape (key : String) (b : Dict) (geoms : List Shape)
    (recs : List Dict) (c : Point) :
    overlayStep key b geoms recs c = b ∨
    ∃ z, overlayStep key b geoms recs c = dset b key z := by
  unfold overlayStep
  cases ht : overlayTry key b geoms recs c with
  | error e => simpa using ultraSafeLoop_shape key b recs c geoms 0
  | ok b' =>
    unfold overlayTry at ht
    simp only [bind, Except.bind] at ht
    cases hq : strtreeQuery geoms c with
    | error e => rw [hq] at ht; exact absurd ht (by simp)
    | ok idxs =>
      rw [hq] at ht
      cases idxs with
      | nil =>
        rcases scanLoop_shape key b recs c geoms 0 with h | h | ⟨z, h⟩
        · rw [h] at ht; exact absurd ht (by simp)
        · rw [h] at ht; simp at ht; subst ht; left; rfl
        · rw [h] at ht; simp at ht; subst ht; right; exact ⟨z, rfl⟩
      | cons idx rest =>
        cases hr : listGet recs idx with
        | error e => simp [hr] at ht
        | ok r =>
          cases hz : getItem r key with
          | error e => simp [hr, hz] at ht
          | ok z =>
            simp [hr, hz] at ht
            right; exact ⟨z, ht.symm⟩

/-- Keys other than the overlay key are untouched by an overlay block. -/
theorem dget_overlayStep_ne (key : String) (b : Dict) (geoms : List Shape)
    (recs : List Dict) (c : Point) (k : String) (h : key ≠ k) :
    dget (overlayStep key b geoms recs c) k = dget b k := by
  rcases overlayStep_shape key b geoms recs c with h0 | ⟨z, h0⟩
  · rw [h0]
  · rw [h0, dget_dset_ne _ _ _ _ h]

/-- A successful run of the per-building loop body only ever writes the keys
`"zoning"` and `"assessed_value"`. -/
theorem enrichBuilding_preserves (lg ag : List Shape) (lu as : List Dict)
    (b b' : Dict) (k : String) (h : enrichBuilding lg ag lu as b = .ok b')
    (hz : k ≠ "zoning") (ha : k ≠ "assessed_value") :
    dget b' k = dget b k := by
  have hpres :
      dget (dset (dset b "zoning" (vStr "Unknown")) "assessed_value" vNone) k = dget b k := by
    rw [dget_dset_ne _ _ _ _ (Ne.symm ha), dget_dset_ne _ _ _ _ (Ne.symm hz)]
  unfold enrichBuilding at h
  by_cases hg : pyTruthy (dget (dset (dset b "zoning" (vStr "Unknown")) "assessed_value" vNone) "geometry")
  · rw [if_neg (not_not_intro hg)] at h
    simp only [bind, Except.bind] at h
    cases hgv : getItem (dset (dset b "zoning" (vStr "Unknown")) "assessed_value" vNone) "geometry" with
    | error e => simp [hgv] at h
    | ok gv =>
      cases hs : shapeOf gv with
      | error e => simp [hgv, hs] at h
      | ok s =>
        cases hc : centroidOf s with
        | error e => simp [hgv, hs, hc] at h
        | ok c =>
          simp only [hgv, hs, hc] at h
          simp only [Except.ok.injEq] at h
          subst h
          by_cases hl : lg.isEmpty <;> by_cases hassess : ag.isEmpty <;>
            simp only [hl, hassess, if_true, if_false] <;>
            simp [dget_overlayStep_ne _ _ _ _ _ _ (Ne.symm hz),
              dget_overlayStep_ne _ _ _ _ _ _ (Ne.symm ha), hpres]
  · rw [if_pos hg] at h
    simp only [Except.ok.injEq] at h
    subst h
    exact hpres

/-- A successfully processed building with falsy geometry carries exactly the
default outputs. -/
theorem enrichBuilding_defaults (lg ag : List Shape) (lu as : List Dict)
    (b b' : Dict) (h : enrichBuilding lg ag lu as b = .ok b')
    (hgeo : pyTruthy (dget b' "geometry") = false) :
    dget b' "zoning" = vStr "Unknown" ∧ dget b' "assessed_value" = vNone := by
  have hdef :
      dget (dset (dset b "zoning" (vStr "Unknown")) "assessed_value" vNone) "zoning"
          = vStr "Unknown" ∧
      dget (dset (dset b "zoning" (vStr "Unknown")) "assessed_value" vNone) "assessed_value"
          = vNone := by
    constructor
    · rw [dget_dset_ne _ _ _ _ (by decide), dget_dset_self]
    · rw [dget_dset_self]
  have hgeo_pres :
      dget (dset (dset b "zoning" (vStr "Unknown")) "assessed_value" vNone) "geometry"
        = dget b "geometry" := by
    rw [dget_dset_ne _ _ _ _ (by decide), dget_dset_ne _ _ _ _ (by decide)]
  have hgb : dget b' "geometry" = dget b "geometry" :=
    enrichBuilding_preserves lg ag lu as b b' _ h (by decide) (by decide)
  unfold enrichBuilding at h
  by_cases hg : pyTruthy (dget (dset (dset b "zoning" (vStr "Unknown")) "assessed_value" vNone) "geometry")
  · exfalso
    rw [hgeo_pres] at hg
    rw [hgb] at hgeo
    rw [hgeo] at hg
    exact Bool.false_ne_true hg
  · rw [if_pos hg] at h
    simp only [Except.ok.injEq] at h
    subst h
    exact hdef

/-- With no polygons at all, a successfully processed building carries
exactly the default outputs. -/
theorem enrichBuilding_empty (lu as : List Dict) (b b' : Dict)
    (h : enrichBuilding [] [] lu as b = .ok b') :
    dget b' "zoning" = vStr "Unknown" ∧ dget b' "assessed_value" = vNone := by
  have hdef :
      dget (dset (dset b "zoning" (vStr "Unknown")) "assessed_value" vNone) "zoning"
          = vStr "Unknown" ∧
      dget (dset (dset b "zoning" (vStr "Unknown")) "assessed_value" vNone) "assessed_value"
          = vNone := by
    constructor
    · rw [dget_dset_ne _ _ _ _ (by decide), dget_dset_self]
    · rw [dget_dset_self]
  unfold enrichBuilding at h
  by_cases hg : pyTruthy (dget (dset (dset b "zoning" (vStr "Unknown")) "assessed_value" vNone) "geometry")
  · rw [if_neg (not_not_intro hg)] at h
    simp only [bind, Except.bind] at h
    cases hgv : getItem (dset (dset b "zoning" (vStr "Unknown")) "assessed_value" vNone) "geometry" with
    | error e => simp [hgv] at h
    | ok gv =>
      cases hs : shapeOf gv with
      | error e => simp [hgv, hs] at h
      | ok s =>
        cases hc : centroidOf s with
        | error e => simp [hgv, hs, hc] at h
        | ok c =>
          simp only [hgv, hs, hc, List.isEmpty_nil, if_true, Except.ok.injEq] at h
          subst h
          exact hdef
  · rw [if_pos hg] at h
    simp only [Except.ok.injEq] at h
    subst h
    exact hdef

/-- The per-building loop body succeeds whenever the building's geometry, if
truthy, is a well-formed rectangle. -/
theorem enrichBuilding_ok_of_rect (lg ag : List Shape) (lu as : List Dict) (b : Dict)
    (hb : pyTruthy (dget b "geometry") = true →
      ∃ x0 y0 x1 y1, dget b "geometry" = vGeom (.rect x0 y0 x1 y1)) :
    ∃ b', enrichBuilding lg ag lu as b = .ok b' := by
  have hgeo_pres :
      dget (dset (dset b "zoning" (vStr "Unknown")) "assessed_value" vNone) "geometry"
        = dget b "geometry" := by
    rw [dget_dset_ne _ _ _ _ (by decide), dget_dset_ne _ _ _ _ (by decide)]
  unfold enrichBuilding
  by_cases hg : pyTruthy (dget (dset (dset b "zoning" (vStr "Unknown")) "assessed_value" vNone) "geometry")
  · obtain ⟨x0, y0, x1, y1, hr⟩ := hb (by rw [← hgeo_pres]; exact hg)
    have hne : dget (dset (dset b "zoning" (vStr "Unknown")) "assessed_value" vNone) "geometry" ≠ vNone := by
      rw [hgeo_pres, hr]; intro hcon; cases hcon
    have hgi := getItem_of_ne_none _ "geometry" hne
    rw [hgeo_pres, hr] at hgi
    rw [if_neg (not_not_intro hg)]
    simp only [bind, Except.bind, hgi]
    simp [shapeOf, shapeG, centroidOf]
  · rw [if_pos hg]
    exact ⟨_, rfl⟩

/-- `buildGeoms` succeeds whenever every truthy geometry among the records
is one `shape()` accepts. -/
theorem buildGeoms_ok (recs : List Dict)
    (h : ∀ f ∈ recs, pyTruthy (dget f "geometry") = true →
      ∃ g, dget f "geometry" = vGeom g ∧ g ≠ .malformed) :
    ∃ gs, buildGeoms recs = .ok gs := by
  unfold buildGeoms
  apply mapE_ok_of_all
  intro f hf
  rw [List.mem_filter] at hf
  obtain ⟨g, hg, hgm⟩ := h f hf.1 hf.2
  have hne : dget f "geometry" ≠ vNone := by rw [hg]; intro hcon; cases hcon
  have hgi := getItem_of_ne_none _ "geometry" hne
  rw [hg] at hgi
  simp only [bind, Except.bind, hgi]
  cases g with
  | rect x0 y0 x1 y1 => exact ⟨_, rfl⟩
  | degenerate => exact ⟨_, rfl⟩
  | malformed => exact absurd rfl hgm

/-! ## Claim theorems -/

/-- C1: the claim says enrichment assigns the zoning of the *first polygon
record in the input list's order whose geometry contains the centroid*, even
when some records lack geometry.  The code instead looks up the index
returned for the filtered geometry list in the unfiltered record list: with
a geometryless record `\x7b zoning: "A" \x7d` first and the only containing
polygon in record `\x7b zoning: "B" \x7d` second, the building receives `"A"` —
the label of the record *without* geometry — rather than `"B"`. -/
theorem enrich_zoning_misaligned_index :
    enrich [[("geometry", vGeom (.rect 0 0 2 2))]]
      [[("zoning", vStr "A")],
       [("zoning", vStr "B"), ("geometry", vGeom (.rect 0 0 10 10))]]
      []
      = .ok [[("geometry", vGeom (.rect 0 0 2 2)), ("zoning", vStr "A"),
              ("assessed_value", vNone)]] ∧
    vStr "A" ≠ vStr "B" := by
  constructor
  · simp [enrich, buildGeoms, mapE, enrichBuilding, dget, dset, getItem, pyTruthy,
      shapeOf, shapeG, centroidOf, overlayStep, overlayTry, strtreeQuery,
      strtreeQueryAux, containsPt, listGet, bind, Except.bind]
  · simp

/-- C3: `apply_filters` has AND semantics — the empty filter list returns
all buildings unchanged, membership in the result is membership in the
input plus satisfaction of every spec, and two specs give exactly the
intersection of each spec's matches. -/
theorem applyFilters_and_semantics :
    (∀ fs : List Dict, applyFilters fs [] = fs) ∧
    (∀ (fs : List Dict) (specs : List FSpec) (b : Dict),
      b ∈ applyFilters fs specs ↔ b ∈ fs ∧ ∀ s ∈ specs, specOk b s = true) ∧
    (∀ (fs : List Dict) (s1 s2 : FSpec) (b : Dict),
      b ∈ applyFilters fs [s1, s2] ↔
        b ∈ applyFilters fs [s1] ∧ b ∈ applyFilters fs [s2]) := by
  refine ⟨?_, ?_, ?_⟩
  · intro fs; simp [applyFilters]
  · intro fs specs b
    simp [applyFilters, List.mem_filter, List.all_eq_true]
  · intro fs s1 s2 b
    simp only [applyFilters, List.mem_filter, List.all_cons, List.all_nil,
      Bool.and_true, Bool.and_eq_true]
    tauto

/-- C4: `norm_building` resolves height and levels so neither is absent —
height absent ∧ levels = 6 ⇒ height 18.0 (levels·3); both absent ⇒ height
12.0 and levels = round(12/3) = 4; height = h present ∧ levels absent ⇒
levels = round(h/3), with Python's banker's rounding. -/
theorem normBuilding_height_levels_resolution :
    ∀ (f : Dict) (props : Dict), propsOf f = .ok props →
      ((resolveHeight props heightCandidates = none →
          resolveLevels props levelCandidates = some 6 →
          ∃ b, normBuilding f = .ok b ∧
            dget b "height_m" = vFloat 18 ∧ dget b "levels" = vInt 6) ∧
        (resolveHeight props heightCandidates = none →
          resolveLevels props levelCandidates = none →
          ∃ b, normBuilding f = .ok b ∧
            dget b "height_m" = vFloat 12 ∧ dget b "levels" = vInt 4) ∧
        (∀ h : ℚ, resolveHeight props heightCandidates = some h →
          resolveLevels props levelCandidates = none →
          ∃ b, normBuilding f = .ok b ∧
            dget b "height_m" = vFloat h ∧
            dget b "levels" = vInt (roundHalfEven (h / 3)))) := by
  intro f props hp
  have hex : ∃ b, normBuilding f = .ok b := by
    unfold normBuilding
    simp only [bind, Except.bind, hp]
    exact ⟨_, rfl⟩
  obtain ⟨b, hb⟩ := hex
  refine ⟨?_, ?_, ?_⟩
  · intro h1 h2
    refine ⟨b, hb, ?_⟩
    unfold normBuilding at hb
    simp only [bind, Except.bind, hp, h1, h2, Except.ok.injEq] at hb
    subst hb
    constructor
    · simp [dget]
      norm_num
    · simp [dget]
  · intro h1 h2
    refine ⟨b, hb, ?_⟩
    unfold normBuilding at hb
    simp only [bind, Except.bind, hp, h1, h2, Except.ok.injEq] at hb
    subst hb
    constructor
    · simp [dget]
    · simp [dget]
      norm_num [roundHalfEven]
  · intro h h1 h2
    refine ⟨b, hb, ?_⟩
    unfold normBuilding at hb
    simp only [bind, Except.bind, hp, h1, h2, Except.ok.injEq] at hb
    subst hb
    constructor
    · simp [dget]
    · simp [dget]

/-- Witness for C4: the three resolution cases at concrete property maps. -/
theorem normBuilding_height_levels_resolution_witness :
    (∃ b, normBuilding [("properties", vDict [("levels", vInt 6)])] = .ok b ∧
      dget b "height_m" = vFloat 18 ∧ dget b "levels" = vInt 6) ∧
    (∃ b, normBuilding [] = .ok b ∧
      dget b "height_m" = vFloat 12 ∧ dget b "levels" = vInt 4) ∧
    (∃ b, normBuilding [("properties", vDict [("height", vFloat 10)])] = .ok b ∧
      dget b "height_m" = vFloat 10 ∧
      dget b "levels" = vInt (roundHalfEven (10 / 3))) :=
  ⟨(normBuilding_height_levels_resolution
      [("properties", vDict [("levels", vInt 6)])] [("levels", vInt 6)] rfl).1 rfl rfl,
   (normBuilding_height_levels_resolution [] [] rfl).2.1 rfl rfl,
   (normBuilding_height_levels_resolution
      [("properties", vDict [("height", vFloat 10)])] [("height", vFloat 10)] rfl).2.2
      10 rfl rfl⟩

/-- C5 counterexample: the claim "enriching with empty zoning and assessment
lists leaves every building (with or without geometry) at the defaults"
fails for a building whose geometry is present but malformed — `shape()`
raises on the centroid line of the loop body and the call never returns. -/
theorem enrich_empty_lists_raises_on_malformed :
    enrich [[("geometry", vGeom .malformed)]] [] [] = .error () := rfl

/-- C5 (amended): whenever enrichment returns at all, every returned
building with falsy geometry has zoning `"Unknown"` and assessed_value
`None`, for any zoning/assessment input; and with empty polygon lists every
returned building has the defaults. -/
theorem enrich_defaults_for_unmatched :
    (∀ bs lu as res, enrich bs lu as = .ok res →
      ∀ b' ∈ res, pyTruthy (dget b' "geometry") = false →
        dget b' "zoning" = vStr "Unknown" ∧ dget b' "assessed_value" = vNone) ∧
    (∀ bs res, enrich bs [] [] = .ok res →
      ∀ b' ∈ res, dget b' "zoning" = vStr "Unknown" ∧ dget b' "assessed_value" = vNone) := by
  constructor
  · intro bs lu as res h b' hb' hgeo
    unfold enrich at h
    simp only [bind, Except.bind] at h
    cases hlg : buildGeoms lu with
    | error e => simp [hlg] at h
    | ok lg =>
      cases hag : buildGeoms as with
      | error e => simp [hlg, hag] at h
      | ok ag =>
        simp only [hlg, hag] at h
        obtain ⟨b, _, hb⟩ := mapE_ok_mem h b' hb'
        exact enrichBuilding_defaults lg ag lu as b b' hb hgeo
  · intro bs res h b' hb'
    unfold enrich at h
    simp only [bind, Except.bind] at h
    have hzero : buildGeoms ([] : List Dict) = .ok [] := rfl
    rw [hzero] at h
    obtain ⟨b, _, hb⟩ := mapE_ok_mem h b' hb'
    exact enrichBuilding_empty [] [] b b' hb

/-- Witness for C5: a geometryless building enriched against a real polygon
list keeps the defaults. -/
theorem enrich_defaults_for_unmatched_witness :
    dget [("id", vInt 1), ("zoning", vStr "Unknown"), ("assessed_value", vNone)] "zoning"
        = vStr "Unknown" ∧
    dget [("id", vInt 1), ("zoning", vStr "Unknown"), ("assessed_value", vNone)] "assessed_value"
        = vNone :=
  enrich_defaults_for_unmatched.1
    [[("id", vInt 1)]]
    [[("zoning", vStr "B"), ("geometry", vGeom (.rect 0 0 10 10))]]
    []
    [[("id", vInt 1), ("zoning", vStr "Unknown"), ("assessed_value", vNone)]]
    rfl
    [("id", vInt 1), ("zoning", vStr "Unknown"), ("assessed_value", vNone)]
    (List.mem_singleton.mpr rfl)
    rfl

/-- C2 counterexample: `enrich_with_zoning_and_assessment` *does* raise — a
building whose geometry value is present but malformed reaches
`shape(b["geometry"]).centroid`, which sits outside every `try` block. -/
theorem enrich_raises_on_malformed_building :
    enrich [[("geometry", vGeom .malformed)]]
      [[("zoning", vStr "B"), ("geometry", vGeom (.rect 0 0 10 10))]]
      [] = .error () := rfl

/-- C2 (amended): enrichment returns a result for every input triple whose
*present* geometries are well-formed (buildings: shapes with a centroid;
polygon records: anything `shape()` accepts, degenerate shapes included —
their containment failures degrade to "no match" inside the scans). -/
theorem enrich_total_on_wellformed :
    ∀ bs lu as : List Dict,
      (∀ b ∈ bs, pyTruthy (dget b "geometry") = true →
        ∃ x0 y0 x1 y1, dget b "geometry" = vGeom (.rect x0 y0 x1 y1)) →
      (∀ f ∈ lu, pyTruthy (dget f "geometry") = true →
        ∃ g, dget f "geometry" = vGeom g ∧ g ≠ .malformed) →
      (∀ f ∈ as, pyTruthy (dget f "geometry") = true →
        ∃ g, dget f "geometry" = vGeom g ∧ g ≠ .malformed) →
      ∃ res, enrich bs lu as = .ok res := by
  intro bs lu as hb hlu has
  obtain ⟨lg, hlg⟩ := buildGeoms_ok lu hlu
  obtain ⟨ag, hag⟩ := buildGeoms_ok as has
  obtain ⟨res, hres⟩ :=
    mapE_ok_of_all (f := enrichBuilding lg ag lu as) (l := bs)
      (fun b hbm => enrichBuilding_ok_of_rect lg ag lu as b (hb b hbm))
  exact ⟨res, by simp [enrich, bind, Except.bind, hlg, hag, hres]⟩

/-- Witness for C2: enrichment returns on a triple with a degenerate zoning
polygon (whose containment check raises and is skipped). -/
theorem enrich_total_on_wellformed_witness :
    ∃ res, enrich [[("geometry", vGeom (.rect 0 0 2 2))]]
      [[("zoning", vStr "D"), ("geometry", vGeom .degenerate)],
       [("zoning", vStr "B"), ("geometry", vGeom (.rect 0 0 10 10))]]
      [] = .ok res :=
  enrich_total_on_wellformed _ _ _
    (by
      intro b hb ht
      rw [List.mem_singleton] at hb
      subst hb
      exact ⟨0, 0, 2, 2, rfl⟩)
    (by
      intro f hf ht
      cases hf with
      | head => exact ⟨.degenerate, rfl, by decide⟩
      | tail _ hf' =>
        cases hf' with
        | head => exact ⟨.rect 0 0 10 10, rfl, by decide⟩
        | tail _ hf'' => cases hf'')
    (by intro f hf ht; cases hf)

/-- A value is `None` exactly when `isNone` says so. -/
theorem isNone_iff (w : Value) : w.isNone = true ↔ w = vNone := by
  cases w <;> simp [Value.isNone]

/-- Characterization of the numeric `=` branch of `apply_filters`'s inner
predicate, for any attribute in the numeric list. -/
theorem specOk_numeric_eq_iff (a : String) (f : Dict) (val : Value)
    (hc : numericAttrs.contains a = true) :
    (specOk f ⟨a, "=", val⟩ = true ↔
      ∃ x v, dget f a ≠ vNone ∧ pyFloat (dget f a) = some x ∧
        pyFloat val = some v ∧ |x - v| < 1 / 1000000) := by
  unfold specOk
  simp only [hc, if_true]
  by_cases hn : (dget f a).isNone
  · have hv : dget f a = vNone := (isNone_iff _).mp hn
    rw [if_pos hn]
    cases hpv : pyFloat val <;> simp [hv]
  · rw [if_neg hn]
    have hvne : dget f a ≠ vNone := fun hcon => hn (by rw [hcon]; rfl)
    cases hpf : pyFloat (dget f a) with
    | none => cases hpv : pyFloat val <;> simp [hpf]
    | some x =>
      cases hpv : pyFloat val with
      | none => simp [hpf, hpv]
      | some v =>
        have b1 : (("=" : String) == ">") = false := rfl
        have b2 : (("=" : String) == "<") = false := rfl
        have b3 : (("=" : String) == ">=") = false := rfl
        have b4 : (("=" : String) == "<=") = false := rfl
        have b5 : (("=" : String) == "=") = true := rfl
        simp only [Option.map_some', b1, b2, b3, b4, b5, Bool.false_and, Bool.true_and,
          Bool.false_or, Bool.or_false, decide_eq_true_eq]
        constructor
        · intro hT
          exact ⟨x, v, hvne, rfl, rfl, hT⟩
        · rintro ⟨x', v', _, hx', hv', hlt⟩
          obtain rfl : x = x' := by simpa using hx'
          obtain rfl : v = v' := by simpa using hv'
          exact hlt

/-- C6: for the numeric attributes, `=` matches exactly when both coercions
succeed, the field is present, and the absolute difference is below the
1e-6 tolerance; the value 500000.0000001 matches `= 500000`; a failed
coercion or an absent field fails the spec (returning `False`, never
raising). -/
theorem applyFilters_numeric_eq_tolerance :
    (∀ (a : String) (f : Dict) (val : Value), a ∈ numericAttrs →
      (specOk f ⟨a, "=", val⟩ = true ↔
        ∃ x v, dget f a ≠ vNone ∧ pyFloat (dget f a) = some x ∧
          pyFloat val = some v ∧ |x - v| < 1 / 1000000)) ∧
    specOk [("assessed_value", vFloat (5000000000001 / 10000000))]
      ⟨"assessed_value", "=", vInt 500000⟩ = true ∧
    specOk [("assessed_value", vStr "abc")]
      ⟨"assessed_value", "=", vInt 500000⟩ = false ∧
    specOk [] ⟨"assessed_value", "=", vInt 500000⟩ = false := by
  refine ⟨?_, ?_, ?_, ?_⟩
  · intro a f val ha
    have hc : numericAttrs.contains a = true := by
      simp only [numericAttrs, List.mem_cons, List.not_mem_nil, or_false] at ha
      rcases ha with rfl | rfl | rfl <;> rfl
    exact specOk_numeric_eq_iff a f val hc
  · rw [specOk_numeric_eq_iff "assessed_value"
      [("assessed_value", vFloat (5000000000001 / 10000000))] (vInt 500000) rfl]
    refine ⟨5000000000001 / 10000000, 500000, by simp [dget], by simp [dget, pyFloat], rfl, ?_⟩
    rw [abs_lt]
    constructor <;> norm_num
  · rw [Bool.eq_false_iff]
    intro hT
    rw [specOk_numeric_eq_iff "assessed_value"
      [("assessed_value", vStr "abc")] (vInt 500000) rfl] at hT
    obtain ⟨x, v, _, hx, _, _⟩ := hT
    rw [show dget [("assessed_value", vStr "abc")] "assessed_value" = vStr "abc" from rfl] at hx
    simp only [pyFloat] at hx
    rw [show parseFloat "abc" = none from rfl] at hx
    cases hx
  · rw [Bool.eq_false_iff]
    intro hT
    rw [specOk_numeric_eq_iff "assessed_value" [] (vInt 500000) rfl] at hT
    obtain ⟨x, v, hne, _, _, _⟩ := hT
    exact hne rfl

/-- Witness for C6: the tolerance characterization applied at a concrete
building and spec. -/
theorem applyFilters_numeric_eq_tolerance_witness :
    specOk [("height_m", vFloat 18)] ⟨"height_m", "=", vInt 18⟩ = true :=
  (applyFilters_numeric_eq_tolerance.1 "height_m" [("height_m", vFloat 18)]
      (vInt 18) (by simp [numericAttrs])).mpr
    ⟨18, 18, by simp [dget], by simp [dget, pyFloat], rfl, by norm_num⟩

/-- C7: with no model credential, `parse_filters` goes straight to the
deterministic extractor — "highlight buildings over 100 feet" yields exactly
one filter, `height_m > 30.48` (100 ft × 0.3048, rounded to 2 decimals),
with note `"fallback"` and no external attempt (the oracle is irrelevant). -/
theorem parseFilters_no_token_fallback :
    ∀ (env : String → Option String) (hub : Bool)
      (call : String → String → Except String String),
      tokenOf env = "" →
      parseFilters env hub call "highlight buildings over 100 feet" =
        ([vDict [("attribute", vStr "height_m"), ("operator", vStr ">"),
                 ("value", vFloat (3048 / 100))]], "fallback") := by
  intro env hub call htok
  unfold parseFilters
  rw [if_pos htok]
  have hfb : fallbackRuleBased "highlight buildings over 100 feet" =
      [mkFilter "height_m" ">"
        (vFloat (pyRound2 ((parseFloat "100").getD 0 * (3048 / 10000))))] := rfl
  rw [hfb]
  have hv : pyRound2 ((parseFloat "100").getD 0 * (3048 / 10000)) = 3048 / 100 := by
    rw [show parseFloat "100" =
      some (1 * (((100 : ℕ) : ℚ) + ((0 : ℕ) : ℚ) / (10 : ℚ) ^ (0 : ℕ))) from rfl]
    norm_num [pyRound2, roundHalfEven]
  rw [hv]
  rfl

/-- Witness for C7: a concrete environment with no credential. -/
theorem parseFilters_no_token_fallback_witness :
    parseFilters (fun _ => none) true (fun _ _ => .error "X")
      "highlight buildings over 100 feet" =
      ([vDict [("attribute", vStr "height_m"), ("operator", vStr ">"),
               ("value", vFloat (3048 / 100))]], "fallback") :=
  parseFilters_no_token_fallback _ _ _ rfl

/-- Every filter the deterministic extractor can emit, by category: the
three numeric categories carry the shared inferred operator, zoning always
`=`, use always `=` with value "commercial" or "residential". -/
theorem fallback_mem_cases (q : String) (fd : Value) (h : fd ∈ fallbackRuleBased q) :
    (∃ v, fd = mkFilter "height_m" (inferOp (pyLower q)) (vFloat v)) ∨
    (∃ v, fd = mkFilter "levels" (inferOp (pyLower q)) (vFloat v)) ∨
    (∃ z, fd = mkFilter "zoning" "=" (vStr z)) ∨
    (∃ v, fd = mkFilter "assessed_value" (inferOp (pyLower q)) (vFloat v)) ∨
    fd = mkFilter "use" "=" (vStr "commercial") ∨
    fd = mkFilter "use" "=" (vStr "residential") := by
  unfold fallbackRuleBased at h
  simp only [List.mem_append] at h
  rcases h with ((((h | h) | h) | h) | h)
  · rcases hfe : feetSearch (pyLower q) with _ | g
    · rw [hfe] at h
      rcases hme : metersSearch (pyLower q) with _ | g
      · rw [hme] at h; cases h
      · rw [hme] at h
        exact Or.inl ⟨_, List.mem_singleton.mp h⟩
    · rw [hfe] at h
      exact Or.inl ⟨_, List.mem_singleton.mp h⟩
  · rcases hlv : levelsSearch (pyLower q) with _ | g
    · rw [hlv] at h; cases h
    · rw [hlv] at h
      exact Or.inr (Or.inl ⟨_, List.mem_singleton.mp h⟩)
  · rcases hzn : zoneSearch q with _ | g
    · rw [hzn] at h; cases h
    · rw [hzn] at h
      exact Or.inr (Or.inr (Or.inl ⟨_, List.mem_singleton.mp h⟩))
  · rcases hmo : (if moneyHint q (pyLower q) then moneySearch (pyLower q) else none)
        with _ | g
    · rw [hmo] at h; cases h
    · rw [hmo] at h
      simp only [] at h
      rcases hpv : parseFloat (removeCommas g) with _ | v
      · rw [hpv] at h; cases h
      · rw [hpv] at h
        exact Or.inr (Or.inr (Or.inr (Or.inl ⟨_, List.mem_singleton.mp h⟩)))
  · rcases h with h | h
    · by_cases hc : pyIn "commercial" (pyLower q) = true
      · rw [if_pos hc] at h
        exact Or.inr (Or.inr (Or.inr (Or.inr (Or.inl (List.mem_singleton.mp h)))))
      · rw [if_neg hc] at h; cases h
    · by_cases hr : pyIn "residential" (pyLower q) = true
      · rw [if_pos hr] at h
        exact Or.inr (Or.inr (Or.inr (Or.inr (Or.inr (List.mem_singleton.mp h)))))
      · rw [if_neg hr] at h; cases h

/-- C8 counterexample: the claim says the keyword `"equal"` selects operator
`=`, but the code checks for `" equal"` with a leading space — the query
"equal 10 m" contains "equal" yet the emitted height filter carries the
default operator `>`. -/
theorem fallback_equal_keyword_needs_space :
    fallbackRuleBased "equal 10 m" =
      [vDict [("attribute", vStr "height_m"), ("operator", vStr ">"),
              ("value", vFloat 10)]] ∧
    (">" : String) ≠ "=" := by
  constructor
  · have hfb : fallbackRuleBased "equal 10 m" =
        [mkFilter "height_m" ">" (vFloat ((parseFloat "10").getD 0))] := rfl
    rw [hfb]
    have hv : ((parseFloat "10").getD 0 : ℚ) = 10 := by
      rw [show parseFloat "10" =
        some (1 * (((10 : ℕ) : ℚ) + ((0 : ℕ) : ℚ) / (10 : ℚ) ^ (0 : ℕ))) from rfl]
      norm_num
    rw [hv]
    rfl
  · decide

/-- C8 (amended): the extractor infers one shared operator — default `>`;
"less than"/"under"/"below"/`<` give `<`; "at least"/`>=` give `>=`;
"at most"/`<=` give `<=`; `" equal"` (with a leading space)/"exact"/`" = "`
give `=`; checked in this order with the last match winning — and applies
it to every numeric filter it emits, while a zoning filter always uses `=`. -/
theorem fallback_shared_operator :
    (∀ ql : String, inferOp ql =
      if pyIn " equal" ql || pyIn "exact" ql || pyIn " = " ql then "="
      else if pyIn "at most" ql || pyIn "<=" ql then "<="
      else if pyIn "at least" ql || pyIn ">=" ql then ">="
      else if containsAnyIn ["less than", "under", "below", "<"] ql then "<"
      else ">") ∧
    (∀ (q : String) (fd : Value) (a o : String) (v : Value),
      fd ∈ fallbackRuleBased q → fd = mkFilter a o v →
      ((a = "height_m" ∨ a = "levels" ∨ a = "assessed_value") →
        o = inferOp (pyLower q)) ∧
      (a = "zoning" → o = "=")) := by
  constructor
  · intro ql
    unfold inferOp
    by_cases c1 : containsAnyIn ["less than", "under", "below", "<"] ql = true <;>
    by_cases c2 : (pyIn "at least" ql || pyIn ">=" ql) = true <;>
    by_cases c3 : (pyIn "at most" ql || pyIn "<=" ql) = true <;>
    by_cases c4 : (pyIn " equal" ql || pyIn "exact" ql || pyIn " = " ql) = true <;>
    simp [c1, c2, c3, c4]
  · intro q fd a o v hmem heq
    subst heq
    rcases fallback_mem_cases q _ hmem with ⟨w, hw⟩ | ⟨w, hw⟩ | ⟨z, hw⟩ | ⟨w, hw⟩ | hw | hw <;>
      simp only [mkFilter, vDict.injEq, List.cons.injEq, Prod.mk.injEq, vStr.injEq,
        and_true, true_and] at hw
    · obtain ⟨rfl, rfl, -⟩ := hw
      exact ⟨fun _ => rfl, fun hz => absurd hz (by decide)⟩
    · obtain ⟨rfl, rfl, -⟩ := hw
      exact ⟨fun _ => rfl, fun hz => absurd hz (by decide)⟩
    · obtain ⟨rfl, rfl, -⟩ := hw
      refine ⟨fun hn => ?_, fun _ => rfl⟩
      rcases hn with hn | hn | hn <;> exact absurd hn (by decide)
    · obtain ⟨rfl, rfl, -⟩ := hw
      exact ⟨fun _ => rfl, fun hz => absurd hz (by decide)⟩
    · obtain ⟨rfl, rfl, -⟩ := hw
      refine ⟨fun hn => ?_, fun hz => absurd hz (by decide)⟩
      rcases hn with hn | hn | hn <;> exact absurd hn (by decide)
    · obtain ⟨rfl, rfl, -⟩ := hw
      refine ⟨fun hn => ?_, fun hz => absurd hz (by decide)⟩
      rcases hn with hn | hn | hn <;> exact absurd hn (by decide)

/-- Witness for C8: the operator cascade at "at most 3 storeys" and the
zoning filter of "show buildings in RC-G zoning". -/
theorem fallback_shared_operator_witness :
    inferOp (pyLower "at most 3 storeys") = "<=" ∧
    ((("zoning" = "height_m" ∨ "zoning" = "levels" ∨ "zoning" = "assessed_value") →
        ("=" : String) = inferOp (pyLower "show buildings in RC-G zoning")) ∧
      (("zoning" : String) = "zoning" → ("=" : String) = "=")) :=
  ⟨(fallback_shared_operator.1 (pyLower "at most 3 storeys")).trans rfl,
   fallback_shared_operator.2 "show buildings in RC-G zoning"
     (mkFilter "zoning" "=" (vStr "RC-G")) "zoning" "=" (vStr "RC-G")
     (by
       rw [show fallbackRuleBased "show buildings in RC-G zoning" =
         [mkFilter "zoning" "=" (vStr "RC-G")] from rfl]
       exact List.mem_singleton.mpr rfl)
     rfl⟩

/-- Candidate-loop lemma: the first successful candidate returns its filters
with note `"hf:<model>"`, regardless of the accumulated last error. -/
theorem tryCandidates_first_ok (call : String → String → Except String String)
    (q : String) :
    ∀ (pre : List String) (m : String) (rest : List String) (fs : List Value)
      (le : Option String),
      (∀ m' ∈ pre, ∃ e, attemptModel call q m' = .error e) →
      attemptModel call q m = .ok fs →
      tryCandidates call q (pre ++ m :: rest) le = (fs, "hf:" ++ m) := by
  intro pre
  induction pre with
  | nil =>
    intro m rest fs le _ hok
    simp [tryCandidates, hok]
  | cons p ps ih =>
    intro m rest fs le hfail hok
    obtain ⟨e, he⟩ := hfail p (by simp)
    simp only [List.cons_append, tryCandidates, he]
    exact ih m rest fs (some e) (fun m' hm' => hfail m' (by simp [hm'])) hok

/-- Candidate-loop lemma: when every candidate fails, the loop falls back
with the last candidate's failure kind. -/
theorem tryCandidates_all_fail (call : String → String → Except String String)
    (q : String) :
    ∀ (pre : List String) (m e : String) (le : Option String),
      (∀ m' ∈ pre, ∃ e', attemptModel call q m' = .error e') →
      attemptModel call q m = .error e →
      tryCandidates call q (pre ++ [m]) le =
        (fallbackRuleBased q, "fallback_error:" ++ e) := by
  intro pre
  induction pre with
  | nil =>
    intro m e le _ he
    simp [tryCandidates, he]
  | cons p ps ih =>
    intro m e le hfail he
    obtain ⟨e', he'⟩ := hfail p (by simp)
    simp only [List.cons_append, tryCandidates, he']
    exact ih m e (some e') (fun m' hm' => hfail m' (by simp [hm'])) he

/-- C9 counterexample: a successful candidate's note is `"hf:<model>"`, not
the `"model:<name>"` format the claim states (here the response even lacks
a non-empty filters array, and the candidate still succeeds). -/
theorem parseFilters_note_is_hf_not_model :
    parseFilters (fun k => if k = "HF_API_KEY" then some "tok" else none) true
      (fun _ _ => .ok "\x7b\"filters\":[]\x7d") "x"
      = ([], "hf:Qwen/Qwen2.5-7B-Instruct") ∧
    ("hf:Qwen/Qwen2.5-7B-Instruct" : String) ≠ "model:Qwen/Qwen2.5-7B-Instruct" := by
  constructor
  · rfl
  · decide

/-- C9 (amended): with a credential configured, `parse_filters` walks the
candidate list in order; the first candidate whose response processing
succeeds returns its (numerically normalized) filters with note
`"hf:<model>"`, and when every candidate fails the deterministic extractor
answers with note `"fallback_error:<lastFailureKind>"`. -/
theorem parseFilters_candidate_chain :
    (∀ (env : String → Option String) (call : String → String → Except String String)
        (q : String) (pre : List String) (m : String) (rest : List String)
        (fs : List Value),
      tokenOf env ≠ "" →
      candidatesOf env = pre ++ m :: rest →
      (∀ m' ∈ pre, ∃ e, attemptModel call q m' = .error e) →
      attemptModel call q m = .ok fs →
      parseFilters env true call q = (fs, "hf:" ++ m)) ∧
    (∀ (env : String → Option String) (call : String → String → Except String String)
        (q : String) (pre : List String) (m e : String),
      tokenOf env ≠ "" →
      candidatesOf env = pre ++ [m] →
      (∀ m' ∈ pre, ∃ e', attemptModel call q m' = .error e') →
      attemptModel call q m = .error e →
      parseFilters env true call q = (fallbackRuleBased q, "fallback_error:" ++ e)) := by
  constructor
  · intro env call q pre m rest fs htok hcand hfail hok
    unfold parseFilters
    rw [if_neg htok, if_neg (by simp), hcand]
    exact tryCandidates_first_ok call q pre m rest fs none hfail hok
  · intro env call q pre m e htok hcand hfail he
    unfold parseFilters
    rw [if_neg htok, if_neg (by simp), hcand]
    exact tryCandidates_all_fail call q pre m e none hfail he

/-- Witness for C9: the second candidate succeeds after the first returns no
JSON; and with an always-failing oracle the result is the fallback with the
last failure kind. -/
theorem parseFilters_candidate_chain_witness :
    parseFilters (fun k => if k = "HF_API_KEY" then some "tok" else none) true
      (fun m _ => if m = "HuggingFaceH4/zephyr-7b-beta"
        then .ok "\x7b\"filters\":[]\x7d" else .ok "no json here") "q"
      = ([], "hf:HuggingFaceH4/zephyr-7b-beta") ∧
    parseFilters (fun k => if k = "HF_API_KEY" then some "tok" else none) true
      (fun _ _ => .error "TimeoutError") "zzz"
      = (fallbackRuleBased "zzz", "fallback_error:TimeoutError") := by
  constructor
  · exact parseFilters_candidate_chain.1
      (fun k => if k = "HF_API_KEY" then some "tok" else none)
      (fun m _ => if m = "HuggingFaceH4/zephyr-7b-beta"
        then .ok "\x7b\"filters\":[]\x7d" else .ok "no json here")
      "q" ["Qwen/Qwen2.5-7B-Instruct"] "HuggingFaceH4/zephyr-7b-beta"
      ["mistralai/Mistral-7B-Instruct-v0.3"] []
      (by decide) rfl
      (by
        intro m' hm'
        cases hm' with
        | head => exact ⟨"no_json", rfl⟩
        | tail _ hm'' => cases hm'')
      rfl
  · exact parseFilters_candidate_chain.2
      (fun k => if k = "HF_API_KEY" then some "tok" else none)
      (fun _ _ => .error "TimeoutError") "zzz"
      ["Qwen/Qwen2.5-7B-Instruct", "HuggingFaceH4/zephyr-7b-beta"]
      "mistralai/Mistral-7B-Instruct-v0.3" "TimeoutError"
      (by decide) rfl
      (by
        intro m' hm'
        cases hm' with
        | head => exact ⟨"TimeoutError", rfl⟩
        | tail _ hm'' =>
          cases hm'' with
          | head => exact ⟨"TimeoutError", rfl⟩
          | tail _ hm3 => cases hm3)
      rfl

/-- C10: `norm_building` emits no `"use"` key; a `\x7b use, =, v \x7d` spec with a
non-empty string value therefore fails (the absent field compares as the
empty string) and `apply_filters` excludes the building; enrichment never
introduces a `"use"` key; and the use filters the extractor emits carry the
non-empty values "commercial"/"residential", so they match no normalized
building. -/
theorem normBuilding_never_matches_use :
    (∀ f b, normBuilding f = .ok b → dget b "use" = vNone) ∧
    (∀ (b : Dict) (v : String), dget b "use" = vNone → v ≠ "" →
      specOk b ⟨"use", "=", vStr v⟩ = false ∧
      ∀ (bs : List Dict) (specs : List FSpec),
        (⟨"use", "=", vStr v⟩ : FSpec) ∈ specs → b ∉ applyFilters bs specs) ∧
    (∀ bs lu as res, enrich bs lu as = .ok res →
      (∀ b ∈ bs, dget b "use" = vNone) →
      ∀ b' ∈ res, dget b' "use" = vNone) ∧
    (∀ (q : String) (fd : Value), fd ∈ fallbackRuleBased q →
      ∀ d, fd = vDict d → dget d "attribute" = vStr "use" →
        ∃ v : String, dget d "value" = vStr v ∧ v ≠ "") := by
  refine ⟨?_, ?_, ?_, ?_⟩
  · intro f b h
    unfold normBuilding at h
    simp only [bind, Except.bind] at h
    cases hp : propsOf f with
    | error e => simp [hp] at h
    | ok props =>
      simp only [hp, Except.ok.injEq] at h
      subst h
      simp [dget]
  · intro b v hbu hv
    have hlv : pyLower v ≠ "" := by
      intro hcon
      apply hv
      have hdata : v.data.map pyCharLower = [] := congrArg String.data hcon
      have hnil : v.data = [] := List.map_eq_nil_iff.mp hdata
      cases v with
      | mk l => cases hnil; rfl
    have hfalse : specOk b ⟨"use", "=", vStr v⟩ = false := by
      unfold specOk
      rw [if_neg (by rw [show numericAttrs.contains "use" = false from rfl]; simp)]
      rw [hbu]
      simp only [pyTruthy, Bool.false_eq_true, if_false, pyStr, pyRepr]
      rw [if_pos (by rfl)]
      rw [show pyLower "" = "" from rfl]
      exact beq_eq_false_iff_ne.mpr (Ne.symm hlv)
    refine ⟨hfalse, ?_⟩
    intro bs specs hs hmem
    rw [applyFilters, List.mem_filter] at hmem
    obtain ⟨-, hall⟩ := hmem
    rw [List.all_eq_true] at hall
    have hT := hall _ hs
    rw [hfalse] at hT
    cases hT
  · intro bs lu as res h hsrc b' hb'
    unfold enrich at h
    simp only [bind, Except.bind] at h
    cases hlg : buildGeoms lu with
    | error e => simp [hlg] at h
    | ok lg =>
      cases hag : buildGeoms as with
      | error e => simp [hlg, hag] at h
      | ok ag =>
        simp only [hlg, hag] at h
        obtain ⟨b, hbm, hb⟩ := mapE_ok_mem h b' hb'
        rw [enrichBuilding_preserves lg ag lu as b b' "use" hb (by decide) (by decide)]
        exact hsrc b hbm
  · intro q fd hmem d hd hattr
    rcases fallback_mem_cases q fd hmem with ⟨w, hw⟩ | ⟨w, hw⟩ | ⟨z, hw⟩ | ⟨w, hw⟩ | hw | hw <;>
      (subst hw; simp only [mkFilter, vDict.injEq] at hd; subst hd)
    · rw [show dget [("attribute", vStr "height_m"), ("operator", vStr (inferOp (pyLower q))),
        ("value", vFloat w)] "attribute" = vStr "height_m" from rfl] at hattr
      exact absurd hattr (by simp)
    · rw [show dget [("attribute", vStr "levels"), ("operator", vStr (inferOp (pyLower q))),
        ("value", vFloat w)] "attribute" = vStr "levels" from rfl] at hattr
      exact absurd hattr (by simp)
    · rw [show dget [("attribute", vStr "zoning"), ("operator", vStr "="),
        ("value", vStr z)] "attribute" = vStr "zoning" from rfl] at hattr
      exact absurd hattr (by simp)
    · rw [show dget [("attribute", vStr "assessed_value"), ("operator", vStr (inferOp (pyLower q))),
        ("value", vFloat w)] "attribute" = vStr "assessed_value" from rfl] at hattr
      exact absurd hattr (by simp)
    · exact ⟨"commercial", rfl, by decide⟩
    · exact ⟨"residential", rfl, by decide⟩

/-- Witness for C10: the building normalized from an empty feature has no
`"use"` key, fails the spec `\x7b use, =, "commercial" \x7d`, and is excluded by
`apply_filters`. -/
theorem normBuilding_never_matches_use_witness :
    dget [("id", vNone), ("geometry", vNone), ("height_m", vFloat 12),
        ("levels", vInt (roundHalfEven (12 / 3))), ("address", vNone), ("zoning", vNone),
        ("assessed_value", vNone), ("raw", vDict [])] "use" = vNone ∧
    specOk [("id", vNone), ("geometry", vNone), ("height_m", vFloat 12),
        ("levels", vInt (roundHalfEven (12 / 3))), ("address", vNone), ("zoning", vNone),
        ("assessed_value", vNone), ("raw", vDict [])]
      ⟨"use", "=", vStr "commercial"⟩ = false := by
  have h1 := normBuilding_never_matches_use.1 []
    [("id", vNone), ("geometry", vNone), ("height_m", vFloat 12),
     ("levels", vInt (roundHalfEven (12 / 3))), ("address", vNone), ("zoning", vNone),
     ("assessed_value", vNone), ("raw", vDict [])] rfl
  exact ⟨h1, (normBuilding_never_matches_use.2.1 _ "commercial" h1 (by decide)).1⟩

end CityDash
